import Mathlib

/-! tcpclient.c : a one-shot HTTP GET client

A shallow embedding of `src/tcpclient.c` (functions `main` and `err_n_die`).

* A byte is a natural number; a C string is the list of its bytes before the
  terminating NUL, so the command-line arguments are lists of non-zero bytes.
* The operating system and the C library are an explicit environment `Env`
  that scripts what every call answers (`socket`, `inet_pton`, `connect`,
  `write`, the successive `read`s, `strerror`, and the value `errno` has after
  each call). `inet_pton` on a valid family, `snprintf`, `fputs` and `close`
  are taken to leave `errno` as it is.
* A run is the ordered trace of the I/O events the program performs, ending
  with the `exit` event, together with the exit status. Returning 0 from
  `main` is the event `exit 0`.
-/

namespace TcpClient

/-! ## Constants of the source -/

abbrev Byte := Nat

/-- `#define SERVER_PORT 80`. -/
def SERVER_PORT : Nat := 80

/-- `#define MAXLINE 4096`. -/
def MAXLINE : Nat := 4096

/-- `EXIT_FAILURE` of `<stdlib.h>`. -/
def EXIT_FAILURE : Int := 1

/-- Largest value of the C type `int` (32 bits). -/
def INT_MAX : Nat := 2147483647

/-- The bytes of an ASCII literal of the source. -/
def bytes (s : String) : List Byte := s.toList.map Char.toNat

/-! ## Environment and events -/

/-- Answer of one `read` call: the bytes the peer has made available (an empty
list is end of stream, `read` returns 0), or a failure (`read` returns -1 and
sets `errno`). -/
inductive ReadRet where
  | ok (data : List Byte)
  | err (errno : Int)
  deriving DecidableEq, Repr

/-- What the operating system and the C library answer during one run. -/
structure Env where
  /-- return value of `socket(AF_INET, SOCK_STREAM, 0)` -/
  socketRet : Int
  /-- value of `errno` after the `socket` call -/
  socketErrno : Int
  /-- return value of `inet_pton(AF_INET, s, &servaddr.sin_addr)` on the string `s` -/
  inet_pton : List Byte → Int
  /-- return value of `connect` -/
  connectRet : Int
  /-- value of `errno` after the `connect` call -/
  connectErrno : Int
  /-- return value of `write` -/
  writeRet : Int
  /-- value of `errno` after the `write` call -/
  writeErrno : Int
  /-- answers of the successive `read` calls; once the script is used up the
  peer has closed and `read` returns 0 -/
  reads : List ReadRet
  /-- indeterminate initial contents of the array `char recvline[MAXLINE]` -/
  recvline0 : { l : List Byte // l.length = MAXLINE }
  /-- text of `strerror` -/
  strerror : Int → List Byte

/-- One observable I/O action of the process. -/
inductive Event where
  | socket (ret : Int)
  | connect (fd : Int) (host : List Byte) (port : Nat) (ret : Int)
  | write (fd : Int) (buf : List Byte) (ret : Int)
  | read (fd : Int) (count : Nat) (ret : Int)
  | close (fd : Int)
  | stdout (s : List Byte)
  | stderr (s : List Byte)
  | exit (status : Int)
  deriving DecidableEq, Repr

/-- Mutable state while the process runs: the global `errno` and the events so far. -/
structure World where
  errno : Int
  trace : List Event

/-- A finished run: every event in order (the last one is `exit`) and the exit status. -/
structure Run where
  trace : List Event
  status : Int

/-! ## C library helpers used by the source -/

/-- `printf`'s `%d` for a non-negative number. -/
def fmtNat (n : Nat) : List Byte := (Nat.toDigits 10 n).map Char.toNat

/-- `printf`'s `%d`. -/
def fmtInt (i : Int) : List Byte :=
  if i < 0 then 45 :: fmtNat i.natAbs else fmtNat i.natAbs

/-- The bytes of the C string stored at the start of a buffer: everything before
the first NUL (what `fputs` and `%s` emit). -/
def cstr (buf : List Byte) : List Byte := buf.takeWhile (fun b => b ≠ 0)

/-- `snprintf(buf, size, ...)` where `full` is the complete formatted text:
stores at most `size - 1` bytes of it followed by a NUL, and returns the length
of `full` (a negative value when that length does not fit an `int`). -/
def snprintf (size : Nat) (full : List Byte) : List Byte × Int :=
  (full.take (size - 1) ++ [0], if full.length ≤ INT_MAX then (full.length : Int) else -1)

/-- The text `snprintf` formats at lines 52-56:
`"GET / HTTP/1.1\r\n" "Host: %s\r\n" "Connection: close\r\n\r\n"` with `%s := addr`. -/
def requestText (addr : List Byte) : List Byte :=
  bytes "GET / HTTP/1.1\r\n" ++ (bytes "Host: " ++ addr ++ bytes "\r\n") ++
    bytes "Connection: close\r\n\r\n"

/-! ## `err_n_die` (lines 80-94) -/

/-- `err_n_die(fmt, ...)`, where `msg` is the text `vfprintf(stderr, fmt, ap)`
prints. It saves `errno`, prints the message, prints the `errno` part when the
saved value is not zero, prints a newline and calls `exit(EXIT_FAILURE)`: the
result is the finished run, the caller is never resumed. -/
def err_n_die (env : Env) (w : World) (msg : List Byte) : Run :=
  let errno_save := w.errno
  let t1 := w.trace ++ [Event.stderr msg]
  let t2 :=
    if errno_save ≠ 0 then
      t1 ++ [Event.stderr (bytes "  (errno " ++ fmtInt errno_save ++ bytes ": " ++
        env.strerror errno_save ++ bytes ")")]
    else t1
  { trace := t2 ++ [Event.stderr (bytes "\n"), Event.exit EXIT_FAILURE],
    status := EXIT_FAILURE }

/-! ## The reception loop (lines 65-70) -/

/-- The loop `while ((n = read(sockfd, recvline, MAXLINE - 1)) > 0) { ... }`.
`rs` is what the remaining `read` calls answer, `buf` the current contents of
`recvline`. Returns the world after the loop and the last value of `n`. -/
def recvLoop (fd : Int) : List ReadRet → World → List Byte → World × Int
  | [], w, _ =>
      ({ w with trace := w.trace ++ [Event.read fd (MAXLINE - 1) 0] }, 0)
  | ReadRet.err e :: _, w, _ =>
      ({ errno := e, trace := w.trace ++ [Event.read fd (MAXLINE - 1) (-1)] }, -1)
  | ReadRet.ok c :: rs, w, buf =>
      -- `read` stores at most `count = MAXLINE - 1` bytes at the start of the buffer
      let d := c.take (MAXLINE - 1)
      let n : Int := d.length
      let w1 : World := { w with trace := w.trace ++ [Event.read fd (MAXLINE - 1) n] }
      if n > 0 then
        let buf1 := d ++ buf.drop d.length
        -- recvline[n] = '\0';
        let buf2 := buf1.set d.length 0
        -- fputs(recvline, stdout);
        recvLoop fd rs { w1 with trace := w1.trace ++ [Event.stdout (cstr buf2)] } buf2
      else (w1, n)

/-! ## `main` (lines 26-77) -/

/-- `main(argc, argv)` with `argv = argv0 :: args`, so `argc = 1 + args.length`
(a program name is always present). -/
def main (env : Env) (argv0 : List Byte) (args : List (List Byte)) : Run :=
  let argc : Int := 1 + args.length
  -- errno is zero at program startup
  let w0 : World := { errno := 0, trace := [] }
  if argc ≠ 2 then
    err_n_die env w0 (bytes "usage: " ++ argv0 ++ bytes " <server IPv4 address>")
  else
  let argv1 := args.headD []
  let sockfd := env.socketRet
  let w1 : World := { errno := env.socketErrno, trace := w0.trace ++ [Event.socket sockfd] }
  if sockfd < 0 then err_n_die env w1 (bytes "socket") else
  if env.inet_pton argv1 ≤ 0 then err_n_die env w1 (bytes "inet_pton: " ++ argv1) else
  let cr := env.connectRet
  let w2 : World :=
    { errno := env.connectErrno,
      trace := w1.trace ++ [Event.connect sockfd argv1 SERVER_PORT cr] }
  if cr < 0 then err_n_die env w2 (bytes "connect") else
  let sendline := (snprintf MAXLINE (requestText argv1)).1
  let sendbytes := (snprintf MAXLINE (requestText argv1)).2
  if sendbytes < 0 ∨ sendbytes ≥ (MAXLINE : Int) then
    err_n_die env w2 (bytes "request too large")
  else
  let wr := env.writeRet
  let w3 : World :=
    { errno := env.writeErrno,
      trace := w2.trace ++ [Event.write sockfd (sendline.take sendbytes.toNat) wr] }
  if wr ≠ sendbytes then err_n_die env w3 (bytes "write") else
  let res := recvLoop sockfd env.reads w3 env.recvline0.val
  if res.2 < 0 then err_n_die env res.1 (bytes "read") else
  { trace := res.1.trace ++ [Event.close sockfd, Event.exit 0], status := 0 }

/-! ## Observations on traces -/

/-- Everything written to standard output, in order. -/
def stdoutOf : List Event → List Byte
  | [] => []
  | Event.stdout s :: t => s ++ stdoutOf t
  | _ :: t => stdoutOf t

/-- Everything written to standard error, in order. -/
def stderrOf : List Event → List Byte
  | [] => []
  | Event.stderr s :: t => s ++ stderrOf t
  | _ :: t => stderrOf t

/-- The chunks handed to standard output, one per `fputs` call. -/
def stdoutChunks : List Event → List (List Byte)
  | [] => []
  | Event.stdout s :: t => s :: stdoutChunks t
  | _ :: t => stdoutChunks t

/-- The text of the first write to standard error: the message of the diagnostic. -/
def diagnostic : List Event → Option (List Byte)
  | [] => none
  | Event.stderr s :: _ => some s
  | _ :: t => diagnostic t

def Event.isWrite : Event → Bool
  | Event.write _ _ _ => true
  | _ => false

def Event.isRead : Event → Bool
  | Event.read _ _ _ => true
  | _ => false

def Event.isClose : Event → Bool
  | Event.close _ => true
  | _ => false

def Event.isExit : Event → Bool
  | Event.exit _ => true
  | _ => false

def Event.isSocket : Event → Bool
  | Event.socket _ => true
  | _ => false

def Event.isConnect : Event → Bool
  | Event.connect _ _ _ _ => true
  | _ => false

/-- Any use of the network: `socket`, `connect`, `write`, `read` or `close`. -/
def Event.isNetwork (e : Event) : Bool :=
  e.isSocket || e.isConnect || e.isWrite || e.isRead || e.isClose

/-! ## IPv4 dotted-quad notation (spec glossary) -/

def isDigit (b : Byte) : Bool := decide (48 ≤ b) && decide (b ≤ 57)

/-- Value of a string of decimal digits. -/
def octetValue (p : List Byte) : Nat := p.foldl (fun v b => 10 * v + (b - 48)) 0

/-- One decimal octet: one to three decimal digits with a value in 0..255. -/
def isOctet (p : List Byte) : Bool :=
  decide (1 ≤ p.length) && decide (p.length ≤ 3) && p.all isDigit && decide (octetValue p ≤ 255)

/-- The fields of a string separated by periods (byte 46). -/
def splitDots : List Byte → List (List Byte)
  | [] => [[]]
  | c :: cs =>
      if c = 46 then [] :: splitDots cs
      else
        match splitDots cs with
        | [] => [[c]]
        | p :: ps => (c :: p) :: ps

/-- Dotted quad as the spec words it (glossary and P2): "four decimal octets
separated by periods", each octet one to three digits with a value 0..255.
This is the vocabulary of the statements; the program itself only sees what
`inet_pton` returns. -/
def isDottedQuad (s : List Byte) : Bool :=
  decide ((splitDots s).length = 4) && (splitDots s).all isOctet

/-- The library's `inet_pton` accepts nothing but dotted quads. -/
def PtonSound (env : Env) : Prop :=
  ∀ s, 0 < env.inet_pton s → isDottedQuad s = true

/-! ## Vocabulary for the statements -/

/-- The events of `err_n_die` called with message `msg` while `errno` is `e`. -/
def dieEvents (env : Env) (e : Int) (msg : List Byte) : List Event :=
  [Event.stderr msg] ++
    (if e ≠ 0 then
      [Event.stderr (bytes "  (errno " ++ fmtInt e ++ bytes ": " ++ env.strerror e ++ bytes ")")]
     else []) ++
    [Event.stderr (bytes "\n"), Event.exit EXIT_FAILURE]

/-- The events of one iteration of the reception loop that reads the chunk `c`. -/
def chunkEvents (fd : Int) (c : List Byte) : List Event :=
  [Event.read fd (MAXLINE - 1) c.length, Event.stdout (cstr c)]

/-- Events the reception loop can produce: a `read` or a write to standard output. -/
def Event.isLoopEvent : Event → Bool
  | Event.read _ _ _ => true
  | Event.stdout _ => true
  | _ => false

/-- Events `err_n_die` can produce: a write to standard error or the `exit`. -/
def Event.isDieEvent : Event → Bool
  | Event.stderr _ => true
  | Event.exit _ => true
  | _ => false

/-- Return value of `read(fd, buf, count)` for a scripted answer. -/
def readRet (count : Nat) : ReadRet → Int
  | ReadRet.ok c => ((c.take count).length : Int)
  | ReadRet.err _ => -1

/-- Return value of the `i`-th `read` call (counting from 0) under the script `rs`. -/
def readRetAt (rs : List ReadRet) (i : Nat) : Int :=
  match rs[i]? with
  | some r => readRet (MAXLINE - 1) r
  | none => 0

/-! ## Worlds and messages along the paths of `main` -/

/-- After `socket`. -/
def afterSocket (env : Env) : World :=
  { errno := env.socketErrno, trace := [Event.socket env.socketRet] }

/-- After `connect`. -/
def afterConnect (env : Env) (a : List Byte) : World :=
  { errno := env.connectErrno,
    trace := [Event.socket env.socketRet,
              Event.connect env.socketRet a SERVER_PORT env.connectRet] }

/-- After `write` of the whole request. -/
def afterWrite (env : Env) (a : List Byte) : World :=
  { errno := env.writeErrno,
    trace := [Event.socket env.socketRet,
              Event.connect env.socketRet a SERVER_PORT env.connectRet,
              Event.write env.socketRet (requestText a) env.writeRet] }

/-- The usage message of line 30. -/
def usageText (argv0 : List Byte) : List Byte :=
  bytes "usage: " ++ argv0 ++ bytes " <server IPv4 address>"

/-- Events of the working part of a run: everything but `close`, writes to
standard error and `exit`. -/
def Event.isWork : Event → Bool
  | Event.socket _ => true
  | Event.connect _ _ _ _ => true
  | Event.write _ _ _ => true
  | Event.read _ _ _ => true
  | Event.stdout _ => true
  | _ => false

/-! ## Concrete environments -/

/-- A conforming `inet_pton`: 1 on a dotted quad, 0 on anything else. -/
def ptonStrict (s : List Byte) : Int := if isDottedQuad s then 1 else 0

/-- A listener on 127.0.0.1:80 that answers the payload of P4 and closes. -/
def stubEnv : Env :=
  { socketRet := 3, socketErrno := 0,
    inet_pton := ptonStrict,
    connectRet := 0, connectErrno := 0,
    writeRet := 54, writeErrno := 0,
    reads := [ReadRet.ok (bytes "HTTP/1.1 200 OK\r\n\r\nhello")],
    recvline0 := ⟨List.replicate MAXLINE 0, List.length_replicate _ _⟩,
    strerror := fun e =>
      if e = 24 then bytes "Too many open files"
      else if e = 104 then bytes "Connection reset by peer"
      else bytes "Unknown error" }

/-- A peer that sends the three bytes `a`, NUL, `b` in one chunk and closes. -/
def nulEnv : Env := { stubEnv with reads := [ReadRet.ok [97, 0, 98]] }

/-- No descriptor is available: `socket` fails with `EMFILE` (24). -/
def noSocketEnv : Env := { stubEnv with socketRet := -1, socketErrno := 24 }

/-- A peer that sends `a`, NUL, `b` and then resets the connection (`ECONNRESET`, 104). -/
def resetEnv : Env := { stubEnv with reads := [ReadRet.ok [97, 0, 98], ReadRet.err 104] }

/-- The peer resets the connection before sending anything. -/
def readFailEnv : Env := { stubEnv with reads := [ReadRet.err 104] }

/-- A library whose `inet_pton` accepts every string (not a real one): it lets
a run reach the size check with an over-long argument. -/
def laxEnv : Env := { stubEnv with inet_pton := fun _ => 1 }

/-! ## Lemmas on the helpers -/

theorem requestText_length (a : List Byte) : (requestText a).length = 45 + a.length := by
  have h1 : (bytes "GET / HTTP/1.1\r\n").length = 16 := by decide
  have h2 : (bytes "Host: ").length = 6 := by decide
  have h3 : (bytes "\r\n").length = 2 := by decide
  have h4 : (bytes "Connection: close\r\n\r\n").length = 21 := by decide
  simp only [requestText, List.length_append, h1, h2, h3, h4]
  omega

theorem requestText_eq (a : List Byte) :
    requestText a = bytes "GET / HTTP/1.1\r\nHost: " ++ a ++ bytes "\r\nConnection: close\r\n\r\n" := by
  have h1 : bytes "GET / HTTP/1.1\r\nHost: " = bytes "GET / HTTP/1.1\r\n" ++ bytes "Host: " := by
    decide
  have h2 : bytes "\r\nConnection: close\r\n\r\n" = bytes "\r\n" ++ bytes "Connection: close\r\n\r\n" := by
    decide
  simp only [requestText, h1, h2, List.append_assoc]

theorem splitDots_length_sum (s : List Byte) :
    ((splitDots s).map (fun p => p.length + 1)).sum = s.length + 1 := by
  induction s with
  | nil => simp [splitDots]
  | cons c cs ih =>
    unfold splitDots
    by_cases hc : c = 46
    · simp only [hc, if_true, List.map_cons, List.sum_cons, ih, List.length_nil, List.length_cons]
      omega
    · simp only [hc, if_false]
      cases hs : splitDots cs with
      | nil => rw [hs] at ih; simp at ih
      | cons p ps =>
        rw [hs] at ih
        simp only [List.map_cons, List.sum_cons, List.length_cons] at ih ⊢
        omega

theorem isOctet_length {p : List Byte} (h : isOctet p = true) : p.length ≤ 3 := by
  simp only [isOctet, Bool.and_eq_true, decide_eq_true_eq] at h
  exact h.1.1.2

theorem isDottedQuad_length {s : List Byte} (h : isDottedQuad s = true) : s.length ≤ 15 := by
  simp only [isDottedQuad, Bool.and_eq_true, decide_eq_true_eq, List.all_eq_true] at h
  obtain ⟨h4, hall⟩ := h
  have hsum := splitDots_length_sum s
  match hs : splitDots s, h4, hall with
  | [a, b, c, d], _, hall =>
    rw [hs] at hsum
    have ha := isOctet_length (hall a (by simp))
    have hb := isOctet_length (hall b (by simp))
    have hc := isOctet_length (hall c (by simp))
    have hd := isOctet_length (hall d (by simp))
    simp only [List.map_cons, List.map_nil, List.sum_cons, List.sum_nil] at hsum
    omega

theorem cstr_append_nul (d rest : List Byte) : cstr (d ++ 0 :: rest) = cstr d := by
  induction d with
  | nil => simp [cstr]
  | cons x xs ih =>
    by_cases hx : x = 0
    · simp [cstr, hx]
    · simp [cstr, hx] at ih ⊢
      exact ih

/-- Storing `d` at the start of a buffer with room for one more byte and
writing a NUL just behind it leaves the C string `cstr d` in the buffer. -/
theorem cstr_store (d buf : List Byte) (h : d.length < buf.length) :
    cstr ((d ++ buf.drop d.length).set d.length 0) = cstr d := by
  cases hdrop : buf.drop d.length with
  | nil =>
    have := congrArg List.length hdrop
    simp at this
    omega
  | cons x xs =>
    have hset : (d ++ x :: xs).set d.length 0 = d ++ 0 :: xs := by
      rw [List.set_append_right _ _ (Nat.le_refl _)]
      simp
    rw [hset, cstr_append_nul]

theorem store_length (d buf : List Byte) (h : d.length < buf.length) :
    ((d ++ buf.drop d.length).set d.length 0).length = buf.length := by
  simp only [List.length_set, List.length_append, List.length_drop]
  omega

theorem cstr_of_no_nul (c : List Byte) (h : ∀ b ∈ c, b ≠ 0) : cstr c = c := by
  simp only [cstr, List.takeWhile_eq_self_iff]
  intro b hb
  simpa using h b hb

theorem cstr_length_le (c : List Byte) : (cstr c).length ≤ c.length := by
  induction c with
  | nil => simp [cstr]
  | cons x xs ih =>
    by_cases hx : x = 0
    · simp [cstr, hx]
    · simp [cstr, hx] at ih ⊢
      exact ih

/-! ## The paths of `main` -/

theorem snprintf_ret_fits (full : List Byte) (h : full.length < MAXLINE) :
    (snprintf MAXLINE full).2 = (full.length : Int) := by
  have : full.length ≤ INT_MAX := by
    simp only [MAXLINE, INT_MAX] at *
    omega
  simp [snprintf, this]

theorem snprintf_buf_fits (full : List Byte) (h : full.length < MAXLINE) :
    ((snprintf MAXLINE full).1).take full.length = full := by
  have h1 : full.length ≤ MAXLINE - 1 := by
    simp only [MAXLINE] at *
    omega
  simp only [snprintf, List.take_of_length_le h1]
  simp

theorem snprintf_large (full : List Byte) (h : MAXLINE ≤ full.length) :
    (snprintf MAXLINE full).2 < 0 ∨ (snprintf MAXLINE full).2 ≥ (MAXLINE : Int) := by
  by_cases hi : full.length ≤ INT_MAX
  · right
    simp only [snprintf, hi, if_true]
    exact_mod_cast h
  · left
    simp [snprintf, hi]

theorem snprintf_small (full : List Byte) (h : full.length < MAXLINE) :
    ¬ ((snprintf MAXLINE full).2 < 0 ∨ (snprintf MAXLINE full).2 ≥ (MAXLINE : Int)) := by
  rw [snprintf_ret_fits full h]
  omega

theorem main_usage (env : Env) (argv0 : List Byte) (args : List (List Byte))
    (h : args.length ≠ 1) :
    main env argv0 args = err_n_die env { errno := 0, trace := [] } (usageText argv0) := by
  have h2 : (1 + (args.length : Int)) ≠ 2 := by omega
  simp [main, h2, usageText]

theorem main_socket_fail (env : Env) (argv0 a : List Byte) (h : env.socketRet < 0) :
    main env argv0 [a] = err_n_die env (afterSocket env) (bytes "socket") := by
  simp [main, h, afterSocket]

theorem main_pton_fail (env : Env) (argv0 a : List Byte) (h1 : 0 ≤ env.socketRet)
    (h2 : env.inet_pton a ≤ 0) :
    main env argv0 [a] = err_n_die env (afterSocket env) (bytes "inet_pton: " ++ a) := by
  have h1n : ¬ env.socketRet < 0 := by omega
  simp [main, h1n, h2, afterSocket]

theorem main_connect_fail (env : Env) (argv0 a : List Byte) (h1 : 0 ≤ env.socketRet)
    (h2 : 0 < env.inet_pton a) (h3 : env.connectRet < 0) :
    main env argv0 [a] = err_n_die env (afterConnect env a) (bytes "connect") := by
  have h1n : ¬ env.socketRet < 0 := by omega
  have h2n : ¬ env.inet_pton a ≤ 0 := by omega
  simp [main, h1n, h2n, h3, afterConnect]

theorem main_too_large (env : Env) (argv0 a : List Byte) (h1 : 0 ≤ env.socketRet)
    (h2 : 0 < env.inet_pton a) (h3 : 0 ≤ env.connectRet)
    (h4 : MAXLINE ≤ (requestText a).length) :
    main env argv0 [a] = err_n_die env (afterConnect env a) (bytes "request too large") := by
  have h1n : ¬ env.socketRet < 0 := by omega
  have h2n : ¬ env.inet_pton a ≤ 0 := by omega
  have h3n : ¬ env.connectRet < 0 := by omega
  have h4n := snprintf_large _ h4
  simp only [main, List.length_singleton, Nat.cast_one, List.headD_cons, h1n, h2n, h3n, h4n,
    if_true, if_false, afterConnect]
  simp

theorem main_fits (env : Env) (argv0 a : List Byte) (h1 : 0 ≤ env.socketRet)
    (h2 : 0 < env.inet_pton a) (h3 : 0 ≤ env.connectRet)
    (h4 : (requestText a).length < MAXLINE) :
    main env argv0 [a] =
      if env.writeRet ≠ ((requestText a).length : Int) then
        err_n_die env (afterWrite env a) (bytes "write")
      else if (recvLoop env.socketRet env.reads (afterWrite env a) env.recvline0.val).2 < 0 then
        err_n_die env (recvLoop env.socketRet env.reads (afterWrite env a) env.recvline0.val).1
          (bytes "read")
      else
        { trace :=
            (recvLoop env.socketRet env.reads (afterWrite env a) env.recvline0.val).1.trace
              ++ [Event.close env.socketRet, Event.exit 0],
          status := 0 } := by
  have h1n : ¬ env.socketRet < 0 := by omega
  have h2n : ¬ env.inet_pton a ≤ 0 := by omega
  have h3n : ¬ env.connectRet < 0 := by omega
  have h4n := snprintf_small _ h4
  rw [snprintf_ret_fits _ h4] at h4n
  have h4c : ¬ (MAXLINE ≤ (requestText a).length) := by omega
  simp only [main, List.length_singleton, Nat.cast_one, List.headD_cons, h1n, h2n, h3n, h4n,
    if_true, if_false, afterWrite, snprintf_ret_fits _ h4, Int.toNat_ofNat,
    snprintf_buf_fits _ h4, List.nil_append, List.cons_append, List.singleton_append]
  simp [h4c]

theorem main_write_fail (env : Env) (argv0 a : List Byte) (h1 : 0 ≤ env.socketRet)
    (h2 : 0 < env.inet_pton a) (h3 : 0 ≤ env.connectRet)
    (h4 : (requestText a).length < MAXLINE)
    (h5 : env.writeRet ≠ ((requestText a).length : Int)) :
    main env argv0 [a] = err_n_die env (afterWrite env a) (bytes "write") := by
  rw [main_fits env argv0 a h1 h2 h3 h4, if_pos h5]

theorem main_read_fail (env : Env) (argv0 a : List Byte) (h1 : 0 ≤ env.socketRet)
    (h2 : 0 < env.inet_pton a) (h3 : 0 ≤ env.connectRet)
    (h4 : (requestText a).length < MAXLINE)
    (h5 : env.writeRet = ((requestText a).length : Int))
    (h6 : (recvLoop env.socketRet env.reads (afterWrite env a) env.recvline0.val).2 < 0) :
    main env argv0 [a] =
      err_n_die env (recvLoop env.socketRet env.reads (afterWrite env a) env.recvline0.val).1
        (bytes "read") := by
  rw [main_fits env argv0 a h1 h2 h3 h4, if_neg (not_not.mpr h5), if_pos h6]

theorem main_success (env : Env) (argv0 a : List Byte) (h1 : 0 ≤ env.socketRet)
    (h2 : 0 < env.inet_pton a) (h3 : 0 ≤ env.connectRet)
    (h4 : (requestText a).length < MAXLINE)
    (h5 : env.writeRet = ((requestText a).length : Int))
    (h6 : 0 ≤ (recvLoop env.socketRet env.reads (afterWrite env a) env.recvline0.val).2) :
    main env argv0 [a] =
      { trace := (recvLoop env.socketRet env.reads (afterWrite env a) env.recvline0.val).1.trace
          ++ [Event.close env.socketRet, Event.exit 0],
        status := 0 } := by
  rw [main_fits env argv0 a h1 h2 h3 h4, if_neg (not_not.mpr h5), if_neg (by omega)]

/-! ## Lemmas on `err_n_die` and the reception loop -/

theorem err_n_die_trace (env : Env) (w : World) (msg : List Byte) :
    (err_n_die env w msg).trace = w.trace ++ dieEvents env w.errno msg := by
  by_cases h : w.errno = 0 <;> simp [err_n_die, dieEvents, h]

theorem err_n_die_status (env : Env) (w : World) (msg : List Byte) :
    (err_n_die env w msg).status = 1 := rfl

theorem dieEvents_isDie (env : Env) (e : Int) (msg : List Byte) :
    ∀ ev ∈ dieEvents env e msg, ev.isDieEvent = true := by
  intro ev hev
  by_cases h : e = 0
  · simp only [dieEvents, h, ne_eq, not_true_eq_false, if_false, List.append_nil,
      List.singleton_append, List.mem_cons, List.mem_singleton, List.mem_nil_iff, or_false] at hev
    rcases hev with h1 | h1 | h1 <;> (subst h1; rfl)
  · simp only [dieEvents, h, ne_eq, not_false_eq_true, if_true, List.append_assoc,
      List.singleton_append, List.cons_append, List.nil_append, List.mem_cons,
      List.mem_singleton, List.mem_nil_iff, or_false] at hev
    rcases hev with h1 | h1 | h1 | h1 <;> (subst h1; rfl)

theorem recvLoop_chunks (fd : Int) (chunks : List (List Byte)) (rest : List ReadRet) :
    ∀ (w : World) (buf : List Byte), buf.length = MAXLINE →
      (∀ c ∈ chunks, 1 ≤ c.length ∧ c.length ≤ MAXLINE - 1) →
      ∃ buf2 : List Byte, buf2.length = MAXLINE ∧
        recvLoop fd (chunks.map ReadRet.ok ++ rest) w buf =
          recvLoop fd rest
            { errno := w.errno, trace := w.trace ++ chunks.flatMap (chunkEvents fd) } buf2 := by
  induction chunks with
  | nil =>
    intro w buf hb _
    exact ⟨buf, hb, by simp⟩
  | cons c cs ih =>
    intro w buf hb hall
    have hc := hall c (by simp)
    have htake : c.take (MAXLINE - 1) = c := List.take_of_length_le hc.2
    have hlt : c.length < buf.length := by
      rw [hb]
      have := hc.2
      simp only [MAXLINE] at *
      omega
    have hpos : ((c.length : Int) > 0) := by
      have := hc.1
      omega
    obtain ⟨buf2, hb2, heq⟩ :=
      ih { errno := w.errno, trace := w.trace ++ chunkEvents fd c }
        ((c ++ buf.drop c.length).set c.length 0)
        (by rw [store_length c buf hlt, hb])
        (fun x hx => hall x (by simp [hx]))
    refine ⟨buf2, hb2, ?_⟩
    simp only [List.map_cons, List.cons_append, recvLoop, htake, hpos, if_true,
      cstr_store c buf hlt]
    simp only [chunkEvents, List.append_assoc, List.singleton_append, List.flatMap_cons,
      List.cons_append, List.nil_append] at heq ⊢
    exact heq

theorem recvLoop_trace (fd : Int) (rs : List ReadRet) :
    ∀ (w : World) (buf : List Byte),
      ∃ evs, (recvLoop fd rs w buf).1.trace = w.trace ++ evs ∧
        ∀ e ∈ evs, e.isLoopEvent = true := by
  induction rs with
  | nil =>
    intro w buf
    exact ⟨[Event.read fd (MAXLINE - 1) 0], by simp [recvLoop], by simp [Event.isLoopEvent]⟩
  | cons r rs ih =>
    intro w buf
    cases r with
    | err e =>
      exact ⟨[Event.read fd (MAXLINE - 1) (-1)], by simp [recvLoop], by simp [Event.isLoopEvent]⟩
    | ok c =>
      by_cases hpos : (((c.take (MAXLINE - 1)).length : Int) > 0)
      · obtain ⟨evs, h1, h2⟩ := ih
          { errno := w.errno,
            trace := w.trace ++ [Event.read fd (MAXLINE - 1) (c.take (MAXLINE - 1)).length] ++
              [Event.stdout (cstr (((c.take (MAXLINE - 1)) ++
                buf.drop (c.take (MAXLINE - 1)).length).set (c.take (MAXLINE - 1)).length 0))] }
          (((c.take (MAXLINE - 1)) ++
                buf.drop (c.take (MAXLINE - 1)).length).set (c.take (MAXLINE - 1)).length 0)
        refine ⟨[Event.read fd (MAXLINE - 1) (c.take (MAXLINE - 1)).length,
          Event.stdout (cstr (((c.take (MAXLINE - 1)) ++
                buf.drop (c.take (MAXLINE - 1)).length).set (c.take (MAXLINE - 1)).length 0))]
            ++ evs, ?_, ?_⟩
        · simp only [recvLoop, hpos, if_true]
          rw [h1]
          simp
        · intro e he
          simp only [List.cons_append, List.nil_append, List.mem_cons] at he
          rcases he with he | he | he
          · subst he; rfl
          · subst he; rfl
          · exact h2 e he
      · exact ⟨[Event.read fd (MAXLINE - 1) (c.take (MAXLINE - 1)).length],
          by simp only [recvLoop, hpos, if_false], by simp [Event.isLoopEvent]⟩

theorem recvLoop_result (fd : Int) (rs : List ReadRet) :
    ∀ (w : World) (buf : List Byte),
      ((recvLoop fd rs w buf).2 = 0 ∨ (recvLoop fd rs w buf).2 = -1) ∧
      ((recvLoop fd rs w buf).2 = 0 ↔
        ∃ k, (∀ i, i < k → 0 < readRetAt rs i) ∧ readRetAt rs k = 0) := by
  induction rs with
  | nil =>
    intro w buf
    refine ⟨Or.inl rfl, ?_⟩
    simp only [recvLoop, true_iff]
    exact ⟨0, by simp, by simp [readRetAt]⟩
  | cons r rs ih =>
    intro w buf
    cases r with
    | err e =>
      refine ⟨Or.inr rfl, ?_⟩
      simp only [recvLoop]
      constructor
      · intro h; omega
      · rintro ⟨k, hk1, hk2⟩
        exfalso
        cases k with
        | zero => simp [readRetAt, readRet] at hk2
        | succ k =>
          have := hk1 0 (by omega)
          simp [readRetAt, readRet] at this
    | ok c =>
      by_cases hpos : (((c.take (MAXLINE - 1)).length : Int) > 0)
      · simp only [recvLoop, hpos, if_true]
        refine ⟨(ih _ _).1, ?_⟩
        rw [(ih _ _).2]
        constructor
        · rintro ⟨k, hk1, hk2⟩
          refine ⟨k + 1, ?_, ?_⟩
          · intro i hi
            cases i with
            | zero => simpa [readRetAt, readRet] using hpos
            | succ i =>
              have := hk1 i (by omega)
              simpa [readRetAt] using this
          · simpa [readRetAt] using hk2
        · rintro ⟨k, hk1, hk2⟩
          cases k with
          | zero =>
            exfalso
            simp only [readRetAt, List.getElem?_cons_zero, readRet] at hk2
            omega
          | succ k =>
            refine ⟨k, ?_, ?_⟩
            · intro i hi
              have := hk1 (i + 1) (by omega)
              simpa [readRetAt] using this
            · simpa [readRetAt] using hk2
      · have hz : ((c.take (MAXLINE - 1)).length : Int) = 0 := by omega
        simp only [recvLoop, hpos, if_false]
        refine ⟨Or.inl hz, ?_⟩
        simp only [hz, true_iff]
        exact ⟨0, by simp, by simpa [readRetAt, readRet] using hz⟩

/-- Every run of `main` follows exactly one of the eight paths of the source. -/
theorem main_cases (env : Env) (argv0 : List Byte) (args : List (List Byte)) :
    (args.length ≠ 1 ∧
      main env argv0 args = err_n_die env { errno := 0, trace := [] } (usageText argv0)) ∨
    ∃ a, args = [a] ∧
      ((env.socketRet < 0 ∧
          main env argv0 args = err_n_die env (afterSocket env) (bytes "socket")) ∨
       (0 ≤ env.socketRet ∧ env.inet_pton a ≤ 0 ∧
          main env argv0 args = err_n_die env (afterSocket env) (bytes "inet_pton: " ++ a)) ∨
       (0 ≤ env.socketRet ∧ 0 < env.inet_pton a ∧ env.connectRet < 0 ∧
          main env argv0 args = err_n_die env (afterConnect env a) (bytes "connect")) ∨
       (0 ≤ env.socketRet ∧ 0 < env.inet_pton a ∧ 0 ≤ env.connectRet ∧
          MAXLINE ≤ (requestText a).length ∧
          main env argv0 args =
            err_n_die env (afterConnect env a) (bytes "request too large")) ∨
       (0 ≤ env.socketRet ∧ 0 < env.inet_pton a ∧ 0 ≤ env.connectRet ∧
          (requestText a).length < MAXLINE ∧
          env.writeRet ≠ ((requestText a).length : Int) ∧
          main env argv0 args = err_n_die env (afterWrite env a) (bytes "write")) ∨
       (0 ≤ env.socketRet ∧ 0 < env.inet_pton a ∧ 0 ≤ env.connectRet ∧
          (requestText a).length < MAXLINE ∧
          env.writeRet = ((requestText a).length : Int) ∧
          (recvLoop env.socketRet env.reads (afterWrite env a) env.recvline0.val).2 < 0 ∧
          main env argv0 args =
            err_n_die env
              (recvLoop env.socketRet env.reads (afterWrite env a) env.recvline0.val).1
              (bytes "read")) ∨
       (0 ≤ env.socketRet ∧ 0 < env.inet_pton a ∧ 0 ≤ env.connectRet ∧
          (requestText a).length < MAXLINE ∧
          env.writeRet = ((requestText a).length : Int) ∧
          0 ≤ (recvLoop env.socketRet env.reads (afterWrite env a) env.recvline0.val).2 ∧
          main env argv0 args =
            { trace :=
                (recvLoop env.socketRet env.reads (afterWrite env a)
                  env.recvline0.val).1.trace ++ [Event.close env.socketRet, Event.exit 0],
              status := 0 })) := by
  by_cases hlen : args.length = 1
  · right
    obtain ⟨a, rfl⟩ := List.length_eq_one.mp hlen
    refine ⟨a, rfl, ?_⟩
    by_cases h1 : env.socketRet < 0
    · exact Or.inl ⟨h1, main_socket_fail env argv0 a h1⟩
    have h1 : 0 ≤ env.socketRet := by omega
    by_cases h2 : env.inet_pton a ≤ 0
    · exact Or.inr (Or.inl ⟨h1, h2, main_pton_fail env argv0 a h1 h2⟩)
    have h2 : 0 < env.inet_pton a := by omega
    by_cases h3 : env.connectRet < 0
    · exact Or.inr (Or.inr (Or.inl ⟨h1, h2, h3, main_connect_fail env argv0 a h1 h2 h3⟩))
    have h3 : 0 ≤ env.connectRet := by omega
    by_cases h4 : MAXLINE ≤ (requestText a).length
    · exact Or.inr (Or.inr (Or.inr (Or.inl
        ⟨h1, h2, h3, h4, main_too_large env argv0 a h1 h2 h3 h4⟩)))
    have h4 : (requestText a).length < MAXLINE := by omega
    by_cases h5 : env.writeRet = ((requestText a).length : Int)
    · by_cases h6 :
          (recvLoop env.socketRet env.reads (afterWrite env a) env.recvline0.val).2 < 0
      · exact Or.inr (Or.inr (Or.inr (Or.inr (Or.inr (Or.inl
          ⟨h1, h2, h3, h4, h5, h6, main_read_fail env argv0 a h1 h2 h3 h4 h5 h6⟩)))))
      · have h6 : 0 ≤ (recvLoop env.socketRet env.reads (afterWrite env a)
            env.recvline0.val).2 := by omega
        exact Or.inr (Or.inr (Or.inr (Or.inr (Or.inr (Or.inr
          ⟨h1, h2, h3, h4, h5, h6, main_success env argv0 a h1 h2 h3 h4 h5 h6⟩)))))
    · exact Or.inr (Or.inr (Or.inr (Or.inr (Or.inl
        ⟨h1, h2, h3, h4, h5, main_write_fail env argv0 a h1 h2 h3 h4 h5⟩))))
  · exact Or.inl ⟨hlen, main_usage env argv0 args hlen⟩

/-! ## The conforming library -/

theorem ptonStrict_sound (s : List Byte) (h : 0 < ptonStrict s) : isDottedQuad s = true := by
  by_cases hs : isDottedQuad s = true
  · exact hs
  · simp [ptonStrict, hs] at h

theorem stubEnv_sound : PtonSound stubEnv := fun s h => ptonStrict_sound s h

/-! ## C1 : the request -/

theorem filter_isWrite_loop (evs : List Event) (h : ∀ e ∈ evs, e.isLoopEvent = true) :
    evs.filter Event.isWrite = [] := by
  rw [List.filter_eq_nil_iff]
  intro e he
  have := h e he
  cases e <;> simp_all [Event.isLoopEvent, Event.isWrite]

theorem filter_isWrite_die (evs : List Event) (h : ∀ e ∈ evs, e.isDieEvent = true) :
    evs.filter Event.isWrite = [] := by
  rw [List.filter_eq_nil_iff]
  intro e he
  have := h e he
  cases e <;> simp_all [Event.isDieEvent, Event.isWrite]

/-- C1: when exactly one argument `a` is given and `socket`, `inet_pton` and
`connect` succeed (with a library `inet_pton` that accepts dotted quads only),
the run makes exactly one `write` call on the socket, and the bytes handed to
it are `"GET / HTTP/1.1\r\nHost: " ++ a ++ "\r\nConnection: close\r\n\r\n"`,
with `a` copied unchanged; this sequence has 45 + |a| bytes, and for
`a = "127.0.0.1"` it is the 54-byte request of P5. -/
theorem C1_request_bytes (env : Env) (argv0 a : List Byte)
    (hsock : 0 ≤ env.socketRet) (hpton : 0 < env.inet_pton a) (hconn : 0 ≤ env.connectRet)
    (hlib : PtonSound env) :
    (main env argv0 [a]).trace.filter Event.isWrite =
        [Event.write env.socketRet
          (bytes "GET / HTTP/1.1\r\nHost: " ++ a ++ bytes "\r\nConnection: close\r\n\r\n")
          env.writeRet] ∧
      (bytes "GET / HTTP/1.1\r\nHost: " ++ a ++
        bytes "\r\nConnection: close\r\n\r\n").length = 45 + a.length ∧
      (a = bytes "127.0.0.1" →
        bytes "GET / HTTP/1.1\r\nHost: " ++ a ++ bytes "\r\nConnection: close\r\n\r\n" =
          bytes "GET / HTTP/1.1\r\nHost: 127.0.0.1\r\nConnection: close\r\n\r\n" ∧
        (bytes "GET / HTTP/1.1\r\nHost: 127.0.0.1\r\nConnection: close\r\n\r\n").length =
          54) := by
  have hlen : a.length ≤ 15 := isDottedQuad_length (hlib a hpton)
  have hfit : (requestText a).length < MAXLINE := by
    rw [requestText_length]
    simp only [MAXLINE]
    omega
  refine ⟨?_, ?_, ?_⟩
  · rw [← requestText_eq, main_fits env argv0 a hsock hpton hconn hfit]
    obtain ⟨evs, htr, hevs⟩ :=
      recvLoop_trace env.socketRet env.reads (afterWrite env a) env.recvline0.val
    split_ifs with h5 h6
    · rw [err_n_die_trace, List.filter_append, filter_isWrite_die _ (dieEvents_isDie _ _ _)]
      simp [afterWrite, Event.isWrite]
    · rw [err_n_die_trace, htr, List.filter_append, List.filter_append,
        filter_isWrite_die _ (dieEvents_isDie _ _ _), filter_isWrite_loop _ hevs]
      simp [afterWrite, Event.isWrite]
    · simp only [htr, List.filter_append, filter_isWrite_loop _ hevs]
      simp [afterWrite, Event.isWrite]
  · rw [← requestText_eq, requestText_length]
  · intro ha
    subst ha
    decide

theorem C1_request_bytes_witness :
    (main stubEnv (bytes "tiny_client") [bytes "127.0.0.1"]).trace.filter Event.isWrite =
        [Event.write 3
          (bytes "GET / HTTP/1.1\r\nHost: " ++ bytes "127.0.0.1" ++
            bytes "\r\nConnection: close\r\n\r\n") 54] ∧
      (bytes "GET / HTTP/1.1\r\nHost: " ++ bytes "127.0.0.1" ++
        bytes "\r\nConnection: close\r\n\r\n").length = 45 + (bytes "127.0.0.1").length ∧
      (bytes "127.0.0.1" = bytes "127.0.0.1" →
        bytes "GET / HTTP/1.1\r\nHost: " ++ bytes "127.0.0.1" ++
            bytes "\r\nConnection: close\r\n\r\n" =
          bytes "GET / HTTP/1.1\r\nHost: 127.0.0.1\r\nConnection: close\r\n\r\n" ∧
        (bytes "GET / HTTP/1.1\r\nHost: 127.0.0.1\r\nConnection: close\r\n\r\n").length =
          54) :=
  C1_request_bytes stubEnv (bytes "tiny_client") (bytes "127.0.0.1")
    (by decide) (by decide) (by decide) stubEnv_sound

/-! ## C5 : wrong number of arguments -/

/-- C5: when the number of command-line arguments is not exactly one, the whole
run consists of writing the usage message `usage: <argv[0]> <server IPv4 address>`
and a newline to standard error and exiting with `EXIT_FAILURE`: there is no
`socket`, `connect`, `write`, `read` or `close` event and nothing reaches
standard output. -/
theorem C5_usage_error (env : Env) (argv0 : List Byte) (args : List (List Byte))
    (h : args.length ≠ 1) :
    (main env argv0 args).trace =
        [Event.stderr (bytes "usage: " ++ argv0 ++ bytes " <server IPv4 address>"),
         Event.stderr (bytes "\n"), Event.exit EXIT_FAILURE] ∧
      (main env argv0 args).status = EXIT_FAILURE ∧
      stderrOf (main env argv0 args).trace =
        bytes "usage: " ++ argv0 ++ bytes " <server IPv4 address>" ++ bytes "\n" ∧
      (∀ e ∈ (main env argv0 args).trace, e.isNetwork = false) ∧
      stdoutOf (main env argv0 args).trace = [] := by
  rw [main_usage env argv0 args h]
  refine ⟨?_, rfl, ?_, ?_, ?_⟩
  · simp [err_n_die, usageText]
  · simp [err_n_die, usageText, stderrOf]
  · intro e he
    simp only [err_n_die, usageText, ne_eq, not_true_eq_false, if_false, List.nil_append,
      List.singleton_append, List.cons_append, List.mem_cons, List.mem_singleton,
      List.mem_nil_iff, or_false] at he
    rcases he with he | he | he <;> (subst he; rfl)
  · simp [err_n_die, usageText, stdoutOf]

theorem C5_usage_error_witness :
    (main stubEnv (bytes "tiny_client") []).trace =
        [Event.stderr (bytes "usage: " ++ bytes "tiny_client" ++ bytes " <server IPv4 address>"),
         Event.stderr (bytes "\n"), Event.exit EXIT_FAILURE] ∧
      (main stubEnv (bytes "tiny_client") []).status = EXIT_FAILURE ∧
      stderrOf (main stubEnv (bytes "tiny_client") []).trace =
        bytes "usage: " ++ bytes "tiny_client" ++ bytes " <server IPv4 address>" ++ bytes "\n" ∧
      (∀ e ∈ (main stubEnv (bytes "tiny_client") []).trace, e.isNetwork = false) ∧
      stdoutOf (main stubEnv (bytes "tiny_client") []).trace = [] :=
  C5_usage_error stubEnv (bytes "tiny_client") [] (by decide)

/-! ## C2, C10 : what reaches standard output -/

/-- C2: evaluation of the code on a response that contains a zero byte. The
single chunk `[97, 0, 98]` is read successfully (return value 3) and the run
ends with status 0, but standard output receives `[97]` only, not the three
bytes that were read. (A response without a zero byte, such as the payload of
P4, is forwarded unchanged.) -/
theorem C2_nul_byte_not_forwarded :
    (main nulEnv (bytes "tiny_client") [bytes "127.0.0.1"]).trace.filter Event.isRead =
        [Event.read 3 4095 3, Event.read 3 4095 0] ∧
      (main nulEnv (bytes "tiny_client") [bytes "127.0.0.1"]).status = 0 ∧
      stdoutOf (main nulEnv (bytes "tiny_client") [bytes "127.0.0.1"]).trace = [97] ∧
      stdoutOf (main nulEnv (bytes "tiny_client") [bytes "127.0.0.1"]).trace ≠ [97, 0, 98] ∧
      stdoutOf (main stubEnv (bytes "tiny_client") [bytes "127.0.0.1"]).trace =
        bytes "HTTP/1.1 200 OK\r\n\r\nhello" := by
  decide

theorem stdoutChunks_append (t1 t2 : List Event) :
    stdoutChunks (t1 ++ t2) = stdoutChunks t1 ++ stdoutChunks t2 := by
  induction t1 with
  | nil => rfl
  | cons e t ih => cases e <;> simp [stdoutChunks, ih]

theorem stdoutOf_eq_flatten (t : List Event) : stdoutOf t = (stdoutChunks t).flatten := by
  induction t with
  | nil => rfl
  | cons e t ih => cases e <;> simp [stdoutOf, stdoutChunks, ih]

theorem stdoutChunks_chunkEvents (fd : Int) (chunks : List (List Byte)) :
    stdoutChunks (chunks.flatMap (chunkEvents fd)) = chunks.map cstr := by
  induction chunks with
  | nil => rfl
  | cons c cs ih =>
    rw [List.flatMap_cons, stdoutChunks_append, ih]
    rfl

/-- The run of `main` when every step up to the loop succeeds and the peer
sends the chunks `chunks` (each of 1 to `MAXLINE - 1` bytes) and then closes. -/
theorem main_stream (env : Env) (argv0 a : List Byte) (chunks : List (List Byte))
    (hsock : 0 ≤ env.socketRet) (hpton : 0 < env.inet_pton a) (hconn : 0 ≤ env.connectRet)
    (hfit : (requestText a).length < MAXLINE)
    (hwrite : env.writeRet = ((requestText a).length : Int))
    (hreads : env.reads = chunks.map ReadRet.ok)
    (hlen : ∀ c ∈ chunks, 1 ≤ c.length ∧ c.length ≤ MAXLINE - 1) :
    main env argv0 [a] =
      { trace := (afterWrite env a).trace ++ chunks.flatMap (chunkEvents env.socketRet) ++
          [Event.read env.socketRet (MAXLINE - 1) 0, Event.close env.socketRet, Event.exit 0],
        status := 0 } := by
  obtain ⟨buf2, _, heq⟩ := recvLoop_chunks env.socketRet chunks [] (afterWrite env a)
    env.recvline0.val env.recvline0.property hlen
  rw [List.append_nil, ← hreads] at heq
  have h6 : 0 ≤ (recvLoop env.socketRet env.reads (afterWrite env a) env.recvline0.val).2 := by
    rw [heq]
    simp [recvLoop]
  rw [main_success env argv0 a hsock hpton hconn hfit hwrite h6, heq]
  simp [recvLoop]

/-- C10: when the run reaches the reception loop and the peer sends the chunks
`c1..ck` (each of length 1..4095) and then closes, the loop hands to standard
output, for each chunk in order, the bytes of that chunk before its first zero
byte (the whole chunk when it has none). The index where the terminating NUL is
stored is the return value of `read`, which is always below `MAXLINE`, the size
of `recvline`. So standard output is `c1 ++ ... ++ ck` when no received byte is
zero, never longer than the received data, and strictly shorter for the
response `[97, 0, 98]`. -/
theorem C10_chunk_emitted_as_c_string (env : Env) (argv0 a : List Byte)
    (chunks : List (List Byte))
    (hsock : 0 ≤ env.socketRet) (hpton : 0 < env.inet_pton a) (hconn : 0 ≤ env.connectRet)
    (hfit : (requestText a).length < MAXLINE)
    (hwrite : env.writeRet = ((requestText a).length : Int))
    (hreads : env.reads = chunks.map ReadRet.ok)
    (hlen : ∀ c ∈ chunks, 1 ≤ c.length ∧ c.length ≤ 4095) :
    stdoutChunks (main env argv0 [a]).trace =
        chunks.map (fun c => c.takeWhile (fun b => b ≠ 0)) ∧
      (∀ fd count n, Event.read fd count n ∈ (main env argv0 [a]).trace →
        0 ≤ n ∧ n < (env.recvline0.val.length : Int)) ∧
      ((∀ c ∈ chunks, ∀ b ∈ c, b ≠ 0) →
        stdoutOf (main env argv0 [a]).trace = chunks.flatten) ∧
      (stdoutOf (main env argv0 [a]).trace).length ≤ chunks.flatten.length ∧
      (stdoutOf (main nulEnv (bytes "tiny_client") [bytes "127.0.0.1"]).trace).length <
        ([97, 0, 98] : List Byte).length := by
  have hrun := main_stream env argv0 a chunks hsock hpton hconn hfit hwrite hreads hlen
  have hchunks : stdoutChunks (main env argv0 [a]).trace = chunks.map cstr := by
    rw [hrun]
    simp [stdoutChunks_append, stdoutChunks_chunkEvents, afterWrite, stdoutChunks]
  refine ⟨hchunks, ?_, ?_, ?_, by decide⟩
  · intro fd count n hmem
    rw [env.recvline0.property]
    rw [hrun] at hmem
    simp only [afterWrite, List.cons_append, List.nil_append, List.mem_cons, List.mem_append,
      List.mem_flatMap, chunkEvents, List.mem_singleton, List.mem_nil_iff, or_false,
      false_or, reduceCtorEq, Event.read.injEq] at hmem
    rcases hmem with ⟨c, hc, _, _, rfl⟩ | ⟨_, _, rfl⟩
    · have := hlen c hc
      simp only [MAXLINE]
      omega
    · simp [MAXLINE]
  · intro hnz
    rw [stdoutOf_eq_flatten, hchunks]
    congr 1
    calc chunks.map cstr = chunks.map id :=
          List.map_congr_left (fun c hc => cstr_of_no_nul c (hnz c hc))
      _ = chunks := List.map_id _
  · rw [stdoutOf_eq_flatten, hchunks, List.length_flatten, List.length_flatten, List.map_map]
    apply List.sum_le_sum
    intro c _
    exact cstr_length_le c

theorem C10_chunk_emitted_as_c_string_witness :
    stdoutChunks (main nulEnv (bytes "tiny_client") [bytes "127.0.0.1"]).trace = [[97]] :=
  (C10_chunk_emitted_as_c_string nulEnv (bytes "tiny_client") (bytes "127.0.0.1")
    [[97, 0, 98]] (by decide) (by decide) (by decide) (by decide) (by decide) rfl
    (by decide)).1

/-! ## C4 : the exit status -/

/-- C4: the exit status is 0 exactly when one argument is given, `socket`
succeeds, the argument is accepted by `inet_pton`, `connect` succeeds, the
request fits `sendline`, `write` returns exactly the request length, and the
reads end with a read returning 0 before any read returns a negative value; in
every other case the exit status is `EXIT_FAILURE` = 1. -/
theorem C4_exit_status (env : Env) (argv0 : List Byte) (args : List (List Byte)) :
    ((main env argv0 args).status = 0 ↔
      ∃ a, args = [a] ∧ 0 ≤ env.socketRet ∧ 0 < env.inet_pton a ∧ 0 ≤ env.connectRet ∧
        (requestText a).length < MAXLINE ∧
        env.writeRet = ((requestText a).length : Int) ∧
        ∃ k, (∀ i, i < k → 0 < readRetAt env.reads i) ∧ readRetAt env.reads k = 0) ∧
      ((main env argv0 args).status = 0 ∨ (main env argv0 args).status = EXIT_FAILURE) ∧
      EXIT_FAILURE = 1 := by
  have hdie : ∀ w m, (err_n_die env w m).status ≠ 0 := by
    intro w m
    rw [err_n_die_status]
    decide
  refine ⟨?_, ?_, rfl⟩
  · rcases main_cases env argv0 args with ⟨hlen, heq⟩ | ⟨a, rfl, hcase⟩
    · rw [heq]
      constructor
      · intro h; exact absurd h (hdie _ _)
      · rintro ⟨a, rfl, _⟩
        simp at hlen
    · have hres := recvLoop_result env.socketRet env.reads (afterWrite env a) env.recvline0.val
      rcases hcase with ⟨h1, heq⟩ | ⟨h1, h2, heq⟩ | ⟨h1, h2, h3, heq⟩ | ⟨h1, h2, h3, h4, heq⟩ |
        ⟨h1, h2, h3, h4, h5, heq⟩ | ⟨h1, h2, h3, h4, h5, h6, heq⟩ | ⟨h1, h2, h3, h4, h5, h6, heq⟩
      · rw [heq]
        refine iff_of_false (hdie _ _) ?_
        rintro ⟨b, hb, hb1, _⟩
        obtain rfl := (List.cons.inj hb).1
        omega
      · rw [heq]
        refine iff_of_false (hdie _ _) ?_
        rintro ⟨b, hb, _, hb2, _⟩
        obtain rfl := (List.cons.inj hb).1
        omega
      · rw [heq]
        refine iff_of_false (hdie _ _) ?_
        rintro ⟨b, hb, _, _, hb3, _⟩
        obtain rfl := (List.cons.inj hb).1
        omega
      · rw [heq]
        refine iff_of_false (hdie _ _) ?_
        rintro ⟨b, hb, _, _, _, hb4, _⟩
        obtain rfl := (List.cons.inj hb).1
        omega
      · rw [heq]
        refine iff_of_false (hdie _ _) ?_
        rintro ⟨b, hb, _, _, _, _, hb5, _⟩
        obtain rfl := (List.cons.inj hb).1
        exact absurd hb5 h5
      · rw [heq]
        refine iff_of_false (hdie _ _) ?_
        rintro ⟨b, hb, _, _, _, _, _, hb6⟩
        obtain rfl := (List.cons.inj hb).1
        have := hres.2.mpr hb6
        omega
      · rw [heq]
        refine iff_of_true rfl ⟨a, rfl, h1, h2, h3, h4, h5, hres.2.mp ?_⟩
        rcases hres.1 with h | h
        · exact h
        · omega
  · rcases main_cases env argv0 args with ⟨_, heq⟩ | ⟨a, rfl, hcase⟩
    · rw [heq]; exact Or.inr rfl
    · rcases hcase with ⟨h1, heq⟩ | ⟨h1, h2, heq⟩ | ⟨h1, h2, h3, heq⟩ | ⟨h1, h2, h3, h4, heq⟩ |
        ⟨h1, h2, h3, h4, h5, heq⟩ | ⟨h1, h2, h3, h4, h5, h6, heq⟩ | ⟨h1, h2, h3, h4, h5, h6, heq⟩
      all_goals rw [heq]
      all_goals first | exact Or.inr rfl | exact Or.inl rfl

/-! ## Shape of a run -/

theorem isWork_of_isLoopEvent (e : Event) (h : e.isLoopEvent = true) : e.isWork = true := by
  cases e <;> simp_all [Event.isLoopEvent, Event.isWork]

theorem afterSocket_work (env : Env) : ∀ e ∈ (afterSocket env).trace, e.isWork = true := by
  intro e he
  simp only [afterSocket, List.mem_singleton] at he
  subst he; rfl

theorem afterConnect_work (env : Env) (a : List Byte) :
    ∀ e ∈ (afterConnect env a).trace, e.isWork = true := by
  intro e he
  simp only [afterConnect, List.mem_cons, List.mem_singleton, List.mem_nil_iff, or_false] at he
  rcases he with he | he <;> (subst he; rfl)

theorem afterWrite_work (env : Env) (a : List Byte) :
    ∀ e ∈ (afterWrite env a).trace, e.isWork = true := by
  intro e he
  simp only [afterWrite, List.mem_cons, List.mem_singleton, List.mem_nil_iff, or_false] at he
  rcases he with he | he | he <;> (subst he; rfl)

theorem recvLoop_work (fd : Int) (rs : List ReadRet) (w : World) (buf : List Byte)
    (hw : ∀ e ∈ w.trace, e.isWork = true) :
    ∀ e ∈ (recvLoop fd rs w buf).1.trace, e.isWork = true := by
  obtain ⟨evs, h1, h2⟩ := recvLoop_trace fd rs w buf
  rw [h1]
  intro e he
  rcases List.mem_append.mp he with he | he
  · exact hw e he
  · exact isWork_of_isLoopEvent e (h2 e he)

theorem diagnostic_work_append (pre post : List Event) (h : ∀ e ∈ pre, e.isWork = true) :
    diagnostic (pre ++ post) = diagnostic post := by
  induction pre with
  | nil => rfl
  | cons e t ih =>
    have he := h e (by simp)
    have ht := ih (fun x hx => h x (by simp [hx]))
    cases e <;> simp_all [diagnostic, Event.isWork]

theorem diagnostic_die (env : Env) (w : World) (m : List Byte)
    (hw : ∀ e ∈ w.trace, e.isWork = true) :
    diagnostic (err_n_die env w m).trace = some m := by
  rw [err_n_die_trace, diagnostic_work_append _ _ hw]
  simp [dieEvents, diagnostic]

theorem stderrOf_append (t1 t2 : List Event) :
    stderrOf (t1 ++ t2) = stderrOf t1 ++ stderrOf t2 := by
  induction t1 with
  | nil => rfl
  | cons e t ih => cases e <;> simp [stderrOf, ih]

theorem stdoutOf_append (t1 t2 : List Event) :
    stdoutOf (t1 ++ t2) = stdoutOf t1 ++ stdoutOf t2 := by
  induction t1 with
  | nil => rfl
  | cons e t ih => cases e <;> simp [stdoutOf, ih]

theorem stderrOf_work (t : List Event) (h : ∀ e ∈ t, e.isWork = true) : stderrOf t = [] := by
  induction t with
  | nil => rfl
  | cons e t ih =>
    have he := h e (by simp)
    have ht := ih (fun x hx => h x (by simp [hx]))
    cases e <;> simp_all [stderrOf, Event.isWork]

theorem stderrOf_dieEvents (env : Env) (e : Int) (m : List Byte) :
    stderrOf (dieEvents env e m) =
      m ++ (if e ≠ 0 then
              bytes "  (errno " ++ fmtInt e ++ bytes ": " ++ env.strerror e ++ bytes ")"
            else []) ++ bytes "\n" := by
  by_cases h : e = 0 <;> simp [dieEvents, stderrOf, h]

theorem not_close_of_work (t : List Event) (h : ∀ e ∈ t, e.isWork = true) :
    ∀ e ∈ t, e.isClose = false := by
  intro e he
  have := h e he
  cases e <;> simp_all [Event.isWork, Event.isClose]

theorem not_close_of_die (t : List Event) (h : ∀ e ∈ t, e.isDieEvent = true) :
    ∀ e ∈ t, e.isClose = false := by
  intro e he
  have := h e he
  cases e <;> simp_all [Event.isDieEvent, Event.isClose]

theorem err_n_die_last (env : Env) (w : World) (m : List Byte) :
    (err_n_die env w m).trace.getLast? = some (Event.exit EXIT_FAILURE) := by
  by_cases h : w.errno = 0 <;> simp [err_n_die, h]

/-- A run either dies in `err_n_die`, called in a world whose events are all
working events, or completes: then its trace is the three events up to `write`,
the events of the loop, `close` and `exit 0`. -/
theorem main_shape (env : Env) (argv0 : List Byte) (args : List (List Byte)) :
    (∃ w m, main env argv0 args = err_n_die env w m ∧ ∀ e ∈ w.trace, e.isWork = true) ∨
    (∃ a evs, args = [a] ∧
      main env argv0 args =
        { trace := (afterWrite env a).trace ++ evs ++
            [Event.close env.socketRet, Event.exit 0],
          status := 0 } ∧
      ∀ e ∈ evs, e.isLoopEvent = true) := by
  rcases main_cases env argv0 args with ⟨_, heq⟩ | ⟨a, rfl, hcase⟩
  · exact Or.inl ⟨_, _, heq, by simp⟩
  · rcases hcase with ⟨_, heq⟩ | ⟨_, _, heq⟩ | ⟨_, _, _, heq⟩ | ⟨_, _, _, _, heq⟩ |
      ⟨_, _, _, _, _, heq⟩ | ⟨_, _, _, _, _, _, heq⟩ | ⟨_, _, _, _, _, _, heq⟩
    · exact Or.inl ⟨_, _, heq, afterSocket_work env⟩
    · exact Or.inl ⟨_, _, heq, afterSocket_work env⟩
    · exact Or.inl ⟨_, _, heq, afterConnect_work env a⟩
    · exact Or.inl ⟨_, _, heq, afterConnect_work env a⟩
    · exact Or.inl ⟨_, _, heq, afterWrite_work env a⟩
    · exact Or.inl ⟨_, _, heq, recvLoop_work _ _ _ _ (afterWrite_work env a)⟩
    · obtain ⟨evs, h1, h2⟩ :=
        recvLoop_trace env.socketRet env.reads (afterWrite env a) env.recvline0.val
      rw [h1] at heq
      exact Or.inr ⟨a, evs, rfl, heq, h2⟩

/-! ## C3 : closing the descriptor -/

/-- C3, amended: a run that completes normally (status 0) opens the socket
first and closes that descriptor just before it exits, with no other `close`,
`socket` or `exit` in between. A run that fails terminates in `err_n_die`
with `exit(EXIT_FAILURE)` as its last event and performs no `close` at all,
also when the socket had been opened. -/
theorem C3_close_only_on_success (env : Env) (argv0 : List Byte) (args : List (List Byte)) :
    ((main env argv0 args).status = 0 ∧
      ∃ mid, (main env argv0 args).trace =
          Event.socket env.socketRet :: mid ++ [Event.close env.socketRet, Event.exit 0] ∧
        ∀ e ∈ mid, e.isClose = false ∧ e.isExit = false ∧ e.isSocket = false) ∨
    ((main env argv0 args).status = EXIT_FAILURE ∧
      (∀ e ∈ (main env argv0 args).trace, e.isClose = false) ∧
      (main env argv0 args).trace.getLast? = some (Event.exit EXIT_FAILURE)) := by
  rcases main_shape env argv0 args with ⟨w, m, heq, hw⟩ | ⟨a, evs, _, heq, hevs⟩
  · right
    rw [heq]
    refine ⟨rfl, ?_, err_n_die_last env w m⟩
    rw [err_n_die_trace]
    intro e he
    rcases List.mem_append.mp he with he | he
    · exact not_close_of_work _ hw e he
    · exact not_close_of_die _ (dieEvents_isDie _ _ _) e he
  · left
    rw [heq]
    refine ⟨rfl, [Event.connect env.socketRet a SERVER_PORT env.connectRet,
      Event.write env.socketRet (requestText a) env.writeRet] ++ evs, ?_, ?_⟩
    · simp [afterWrite]
    · intro e he
      simp only [List.cons_append, List.nil_append, List.mem_cons] at he
      rcases he with he | he | he
      · subst he; exact ⟨rfl, rfl, rfl⟩
      · subst he; exact ⟨rfl, rfl, rfl⟩
      · have := hevs e he
        cases e <;> simp_all [Event.isLoopEvent, Event.isClose, Event.isExit, Event.isSocket]

/-- C3 as stated fails: with the argument `abc` the socket is opened
(descriptor 3), `inet_pton` rejects the argument, and the process exits with
status 1 without any `close` event. -/
theorem C3_counterexample :
    Event.socket 3 ∈ (main stubEnv (bytes "tiny_client") [bytes "abc"]).trace ∧
      (main stubEnv (bytes "tiny_client") [bytes "abc"]).trace.getLast? = some (Event.exit 1) ∧
      ¬ Event.close 3 ∈ (main stubEnv (bytes "tiny_client") [bytes "abc"]).trace ∧
      (main stubEnv (bytes "tiny_client") [bytes "abc"]).trace.filter Event.isClose = [] := by
  decide

/-! ## C6 : invalid address -/

/-- C6, amended: for a single argument `s` that is not a dotted quad (and a
library `inet_pton` that accepts dotted quads only) the run ends with
`EXIT_FAILURE` and makes no `connect`, `write` or `read`. When `socket`
succeeded the run is the `socket` call followed by `err_n_die` with the message
`"inet_pton: " ++ s`; when `socket` failed the message is `"socket"`. -/
theorem C6_invalid_address (env : Env) (argv0 s : List Byte)
    (hlib : PtonSound env) (hbad : isDottedQuad s = false) :
    (main env argv0 [s]).status = EXIT_FAILURE ∧
      (∀ e ∈ (main env argv0 [s]).trace,
        e.isConnect = false ∧ e.isWrite = false ∧ e.isRead = false) ∧
      diagnostic (main env argv0 [s]).trace =
        some (if env.socketRet < 0 then bytes "socket" else bytes "inet_pton: " ++ s) ∧
      (main env argv0 [s]).trace =
        Event.socket env.socketRet ::
          dieEvents env env.socketErrno
            (if env.socketRet < 0 then bytes "socket" else bytes "inet_pton: " ++ s) := by
  have hrej : env.inet_pton s ≤ 0 := by
    by_contra hcon
    have := hlib s (by omega)
    rw [hbad] at this
    exact Bool.false_ne_true this
  have hrun : main env argv0 [s] =
      err_n_die env (afterSocket env)
        (if env.socketRet < 0 then bytes "socket" else bytes "inet_pton: " ++ s) := by
    by_cases h1 : env.socketRet < 0
    · rw [if_pos h1, main_socket_fail env argv0 s h1]
    · rw [if_neg h1, main_pton_fail env argv0 s (by omega) hrej]
  refine ⟨?_, ?_, ?_, ?_⟩
  · rw [hrun]; rfl
  · rw [hrun, err_n_die_trace]
    intro e he
    rcases List.mem_append.mp he with he | he
    · simp only [afterSocket, List.mem_singleton] at he
      subst he
      exact ⟨rfl, rfl, rfl⟩
    · have := dieEvents_isDie _ _ _ e he
      cases e <;> simp_all [Event.isDieEvent, Event.isConnect, Event.isWrite, Event.isRead]
  · rw [hrun]
    exact diagnostic_die env _ _ (afterSocket_work env)
  · rw [hrun, err_n_die_trace]
    rfl

theorem C6_invalid_address_witness :
    diagnostic (main stubEnv (bytes "tiny_client") [bytes "999.1.1.1"]).trace =
      some (bytes "inet_pton: 999.1.1.1") :=
  (C6_invalid_address stubEnv (bytes "tiny_client") (bytes "999.1.1.1")
    stubEnv_sound (by decide)).2.2.1

/-- C6 as stated fails: `abc` is not a dotted quad, but when `socket` fails the
only diagnostic is the `socket` line; the argument is not reported. -/
theorem C6_counterexample :
    isDottedQuad (bytes "abc") = false ∧
      (main noSocketEnv (bytes "tiny_client") [bytes "abc"]).status = 1 ∧
      stderrOf (main noSocketEnv (bytes "tiny_client") [bytes "abc"]).trace =
        bytes "socket  (errno 24: Too many open files)\n" ∧
      diagnostic (main noSocketEnv (bytes "tiny_client") [bytes "abc"]).trace ≠
        some (bytes "inet_pton: " ++ bytes "abc") := by
  decide

/-! ## C7 : a read that fails -/

/-- The run of `main` when every step up to the loop succeeds, the peer sends
the chunks `chunks` (each of 1 to `MAXLINE - 1` bytes) and the next `read`
fails with `errno = e`: each chunk is handed to standard output as a C string,
no `read` follows the failing one, and the run dies with the message `read`. -/
theorem main_read_failure (env : Env) (argv0 a : List Byte) (chunks : List (List Byte))
    (e : Int) (rest : List ReadRet)
    (hsock : 0 ≤ env.socketRet) (hpton : 0 < env.inet_pton a) (hconn : 0 ≤ env.connectRet)
    (hfit : (requestText a).length < MAXLINE)
    (hwrite : env.writeRet = ((requestText a).length : Int))
    (hreads : env.reads = chunks.map ReadRet.ok ++ ReadRet.err e :: rest)
    (hlen : ∀ c ∈ chunks, 1 ≤ c.length ∧ c.length ≤ MAXLINE - 1) :
    main env argv0 [a] =
      { trace := (afterWrite env a).trace ++ chunks.flatMap (chunkEvents env.socketRet) ++
          [Event.read env.socketRet (MAXLINE - 1) (-1)] ++ dieEvents env e (bytes "read"),
        status := EXIT_FAILURE } := by
  obtain ⟨buf2, _, heq⟩ := recvLoop_chunks env.socketRet chunks (ReadRet.err e :: rest)
    (afterWrite env a) env.recvline0.val env.recvline0.property hlen
  rw [← hreads] at heq
  have h6 : (recvLoop env.socketRet env.reads (afterWrite env a) env.recvline0.val).2 < 0 := by
    rw [heq]
    simp [recvLoop]
  have hrun := main_read_fail env argv0 a hsock hpton hconn hfit hwrite h6
  rw [hrun, heq]
  have htr := err_n_die_trace env
    (recvLoop env.socketRet (ReadRet.err e :: rest)
      { errno := (afterWrite env a).errno,
        trace := (afterWrite env a).trace ++ chunks.flatMap (chunkEvents env.socketRet) }
      buf2).1 (bytes "read")
  have hst := err_n_die_status env
    (recvLoop env.socketRet (ReadRet.err e :: rest)
      { errno := (afterWrite env a).errno,
        trace := (afterWrite env a).trace ++ chunks.flatMap (chunkEvents env.socketRet) }
      buf2).1 (bytes "read")
  cases hrun2 : err_n_die env
    (recvLoop env.socketRet (ReadRet.err e :: rest)
      { errno := (afterWrite env a).errno,
        trace := (afterWrite env a).trace ++ chunks.flatMap (chunkEvents env.socketRet) }
      buf2).1 (bytes "read") with
  | mk tr st =>
    rw [hrun2] at htr hst
    simp only at htr hst
    subst htr hst
    simp [recvLoop, EXIT_FAILURE]

/-- C7: evaluation of the code on a run where the chunk `[97, 0, 98]` is read
successfully and the next `read` fails with `ECONNRESET`. The `read` line goes
to standard error, the status is 1 and no third `read` is made, but standard
output holds `[97]` only: the bytes `0, 98` of the chunk read before the
failure were never forwarded. -/
theorem C7_chunk_before_failure_truncated :
    (main resetEnv (bytes "tiny_client") [bytes "127.0.0.1"]).trace.filter Event.isRead =
        [Event.read 3 4095 3, Event.read 3 4095 (-1)] ∧
      (main resetEnv (bytes "tiny_client") [bytes "127.0.0.1"]).status = 1 ∧
      stderrOf (main resetEnv (bytes "tiny_client") [bytes "127.0.0.1"]).trace =
        bytes "read  (errno 104: Connection reset by peer)\n" ∧
      stdoutOf (main resetEnv (bytes "tiny_client") [bytes "127.0.0.1"]).trace = [97] ∧
      stdoutOf (main resetEnv (bytes "tiny_client") [bytes "127.0.0.1"]).trace ≠
        [97, 0, 98] := by
  decide

/-! ## C8 : the diagnostic line -/

/-- C8, amended: `err_n_die` called with the formatted message `m` while
`errno` is `e` appends to standard error exactly `m`, then - exactly when
`e ≠ 0` - two spaces and `(errno <e>: <strerror e>)`, then one newline byte;
it then exits with `EXIT_FAILURE` (which is not 0) and that `exit` is the last
event. Every run of `main` either ends with status 0 or is such a call of
`err_n_die`, made before anything was written to standard error or any `exit`
happened, so nothing of the caller runs after it. -/
theorem C8_error_line (env : Env) (w : World) (m : List Byte) (argv0 : List Byte)
    (args : List (List Byte)) :
    stderrOf (err_n_die env w m).trace =
        stderrOf w.trace ++
          (m ++ (if w.errno ≠ 0 then
                  bytes "  (errno " ++ fmtInt w.errno ++ bytes ": " ++ env.strerror w.errno ++
                    bytes ")"
                else []) ++ bytes "\n") ∧
      (err_n_die env w m).status = EXIT_FAILURE ∧ EXIT_FAILURE ≠ 0 ∧
      (err_n_die env w m).trace.getLast? = some (Event.exit EXIT_FAILURE) ∧
      ((main env argv0 args).status = 0 ∨
        ∃ w2 m2, main env argv0 args = err_n_die env w2 m2 ∧ stderrOf w2.trace = [] ∧
          ∀ e ∈ w2.trace, e.isExit = false) := by
  refine ⟨?_, rfl, by decide, err_n_die_last env w m, ?_⟩
  · rw [err_n_die_trace, stderrOf_append, stderrOf_dieEvents]
  · rcases main_shape env argv0 args with ⟨w2, m2, heq, hw⟩ | ⟨a, evs, _, heq, _⟩
    · right
      refine ⟨w2, m2, heq, stderrOf_work _ hw, ?_⟩
      intro e he
      have := hw e he
      cases e <;> simp_all [Event.isWork, Event.isExit]
    · left
      rw [heq]

/-- C8 as stated fails. (1) When the first `read` fails with `errno = 104` the
line on standard error is `read`, two spaces, `(errno 104: ...)`: it differs
from the claimed format, which has a single space. (2) The message is not
always one line: with the argument `1\n2` the text written has two newlines. -/
theorem C8_counterexample :
    stderrOf (main readFailEnv (bytes "tiny_client") [bytes "127.0.0.1"]).trace =
        bytes "read  (errno 104: Connection reset by peer)\n" ∧
      stderrOf (main readFailEnv (bytes "tiny_client") [bytes "127.0.0.1"]).trace ≠
        bytes "read" ++ (bytes " (errno " ++ fmtInt 104 ++ bytes ": " ++
          readFailEnv.strerror 104 ++ bytes ")") ++ bytes "\n" ∧
      stderrOf (main stubEnv (bytes "tiny_client") [bytes "1\n2"]).trace =
        bytes "inet_pton: 1\n2\n" ∧
      (stderrOf (main stubEnv (bytes "tiny_client") [bytes "1\n2"]).trace).count 10 = 2 := by
  decide

/-! ## C9 : the request-size bound -/

theorem diagnostic_success (env : Env) (a : List Byte) (evs : List Event)
    (h : ∀ e ∈ evs, e.isLoopEvent = true) :
    diagnostic ((afterWrite env a).trace ++ evs ++
      [Event.close env.socketRet, Event.exit 0]) = none := by
  rw [diagnostic_work_append]
  · rfl
  · intro e he
    rcases List.mem_append.mp he with he | he
    · exact afterWrite_work env a e he
    · exact isWork_of_isLoopEvent e (h e he)

theorem usageText_ne (argv0 : List Byte) : usageText argv0 ≠ bytes "request too large" := by
  have h1 : bytes "usage: " = 117 :: bytes "sage: " := by decide
  have h2 : bytes "request too large" = 114 :: bytes "equest too large" := by decide
  intro h
  rw [usageText, h1, h2] at h
  have := congrArg List.head? h
  simp at this

theorem ptonText_ne (a : List Byte) : bytes "inet_pton: " ++ a ≠ bytes "request too large" := by
  have h1 : bytes "inet_pton: " = 105 :: bytes "net_pton: " := by decide
  have h2 : bytes "request too large" = 114 :: bytes "equest too large" := by decide
  intro h
  rw [h1, h2] at h
  have := congrArg List.head? h
  simp at this

/-- The diagnostic of a run is "request too large" only on the path of line 58. -/
theorem too_large_only (env : Env) (argv0 : List Byte) (args : List (List Byte))
    (h : diagnostic (main env argv0 args).trace = some (bytes "request too large")) :
    ∃ a, args = [a] ∧ 0 ≤ env.socketRet ∧ 0 < env.inet_pton a ∧ 0 ≤ env.connectRet ∧
      MAXLINE ≤ (requestText a).length := by
  rcases main_cases env argv0 args with ⟨_, heq⟩ | ⟨a, rfl, hcase⟩
  · rw [heq, diagnostic_die env _ _ (by simp)] at h
    exact absurd (Option.some.inj h) (usageText_ne argv0)
  · rcases hcase with ⟨_, heq⟩ | ⟨_, _, heq⟩ | ⟨_, _, _, heq⟩ | ⟨h1, h2, h3, h4, _⟩ |
      ⟨_, _, _, _, _, heq⟩ | ⟨_, _, _, _, _, _, heq⟩ | ⟨_, _, _, _, _, _, heq⟩
    · rw [heq, diagnostic_die env _ _ (afterSocket_work env)] at h
      exact absurd (Option.some.inj h) (by decide)
    · rw [heq, diagnostic_die env _ _ (afterSocket_work env)] at h
      exact absurd (Option.some.inj h) (ptonText_ne a)
    · rw [heq, diagnostic_die env _ _ (afterConnect_work env a)] at h
      exact absurd (Option.some.inj h) (by decide)
    · exact ⟨a, rfl, h1, h2, h3, h4⟩
    · rw [heq, diagnostic_die env _ _ (afterWrite_work env a)] at h
      exact absurd (Option.some.inj h) (by decide)
    · rw [heq, diagnostic_die env _ _ (recvLoop_work _ _ _ _ (afterWrite_work env a))] at h
      exact absurd (Option.some.inj h) (by decide)
    · obtain ⟨evs, h1, h2⟩ :=
        recvLoop_trace env.socketRet env.reads (afterWrite env a) env.recvline0.val
      rw [heq] at h
      simp only [h1] at h
      rw [diagnostic_success env a evs h2] at h
      exact absurd h (by simp)

/-- C9: in a run that reaches the construction of the request (one argument
`a`; `socket`, `inet_pton` and `connect` succeeded) the failure "request too
large" is raised exactly when the request length 45 + |a| is at least 4096,
which is exactly when the test of line 57 holds (`snprintf` returned a negative
value or a value `≥ MAXLINE`); in that case the run fails without any `write`
on the socket. For every argument `b` that is a dotted quad, |b| ≤ 15, the
request has at most 60 < 4096 bytes, and no run on `b` raises this failure. -/
theorem C9_request_bound (env : Env) (argv0 a : List Byte)
    (hsock : 0 ≤ env.socketRet) (hpton : 0 < env.inet_pton a) (hconn : 0 ≤ env.connectRet) :
    (diagnostic (main env argv0 [a]).trace = some (bytes "request too large") ↔
        4096 ≤ 45 + a.length) ∧
      (requestText a).length = 45 + a.length ∧
      (4096 ≤ 45 + a.length ↔
        ((snprintf MAXLINE (requestText a)).2 < 0 ∨
          (snprintf MAXLINE (requestText a)).2 ≥ (MAXLINE : Int))) ∧
      (4096 ≤ 45 + a.length →
        (main env argv0 [a]).status = EXIT_FAILURE ∧
        (main env argv0 [a]).trace.filter Event.isWrite = []) ∧
      (∀ (env2 : Env) (argv b : List Byte), isDottedQuad b = true →
        b.length ≤ 15 ∧ (requestText b).length ≤ 60 ∧
        diagnostic (main env2 argv [b]).trace ≠ some (bytes "request too large")) := by
  have hlen := requestText_length a
  refine ⟨?_, hlen, ?_, ?_, ?_⟩
  · constructor
    · intro h
      obtain ⟨b, hb, _, _, _, h4⟩ := too_large_only env argv0 [a] h
      obtain rfl := (List.cons.inj hb).1
      rw [hlen] at h4
      simpa [MAXLINE] using h4
    · intro h
      have h4 : MAXLINE ≤ (requestText a).length := by
        rw [hlen]; simpa [MAXLINE] using h
      rw [main_too_large env argv0 a hsock hpton hconn h4]
      exact diagnostic_die env _ _ (afterConnect_work env a)
  · constructor
    · intro h
      apply snprintf_large
      rw [hlen]; simpa [MAXLINE] using h
    · intro h
      by_contra hcon
      have h4 : (requestText a).length < MAXLINE := by
        rw [hlen]
        simp only [MAXLINE]
        omega
      exact snprintf_small _ h4 h
  · intro h
    have h4 : MAXLINE ≤ (requestText a).length := by
      rw [hlen]; simpa [MAXLINE] using h
    rw [main_too_large env argv0 a hsock hpton hconn h4]
    refine ⟨rfl, ?_⟩
    rw [err_n_die_trace, List.filter_append, filter_isWrite_die _ (dieEvents_isDie _ _ _)]
    simp [afterConnect, Event.isWrite]
  · intro env2 argv b hb
    have hb15 := isDottedQuad_length hb
    have hblen := requestText_length b
    refine ⟨hb15, by omega, ?_⟩
    intro h
    obtain ⟨c, hc, _, _, _, h4⟩ := too_large_only env2 argv [b] h
    obtain rfl := (List.cons.inj hc).1
    rw [hblen] at h4
    simp only [MAXLINE] at h4
    omega

theorem C9_request_bound_witness :
    diagnostic (main laxEnv (bytes "tiny_client") [List.replicate 4051 49]).trace =
      some (bytes "request too large") :=
  (C9_request_bound laxEnv (bytes "tiny_client") (List.replicate 4051 49)
    (by decide) (by decide) (by decide)).1.mpr
      (by have h := List.length_replicate 4051 (49 : Byte); omega)

end TcpClient
